import Mathlib

/-!
Verification of the beebium memory access layer
(`clients/python/src/beebium/memory.py`) against its specification.

The backend (the remote emulator reached over RPC) is modelled as a byte
store: a total map from addresses to byte values.  Every operation of the
client layer is embedded as a pure function which returns, besides its
result, the final store and the list of backend calls it issued, so that
"no backend call", "exactly one backend call" and "state unchanged on
validation failure" are expressible.  Raising an exception in the Python
source corresponds to returning an `Except.error` together with the
unchanged store and an empty call list (the `raise` statements all occur
before any backend call in the functions modelled here; where that is the
very property at stake it is proved, not assumed).
-/

namespace Beebium

/-- Backend byte store: remote memory as a total map from (integer)
addresses to byte values. -/
def Store : Type := Int → Nat

/-- Calls issued to the backend RPC boundary by the memory layer. -/
inductive BackendCall where
  /-- ReadMemory / ReadRegion / PeekMemory style read of `length` bytes. -/
  | readMem (address : Int) (length : Nat)
  /-- WriteMemory / WriteRegion style write of `data`. -/
  | writeMem (address : Int) (data : List Nat)
  /-- GetMemoryRegions catalog fetch. -/
  | getMemoryRegions
  deriving Repr, DecidableEq

/-- Client-side validation errors, named as in the specification.  In the
Python source these are `ValueError`s with distinguishing messages. -/
inductive MemError where
  /-- Slice without an explicit stop address. -/
  | missingStop
  /-- Slice step other than 1 on a raw byte accessor. -/
  | unsupportedStep
  /-- Single-byte write value outside [0, 255]. -/
  | valueRange
  /-- Slice assignment size mismatch, carrying slice length and data length. -/
  | sizeMismatch (sliceLength : Int) (dataLength : Nat)
  /-- Typed-view slice length not a multiple of the element width. -/
  | alignment (length : Int) (width : Nat)
  /-- Typed-view slice assignment with the wrong number of values. -/
  | countMismatch (expected : Int) (got : Nat)
  deriving Repr, DecidableEq

/-- Python slice object `start:stop:step` as received by `__getitem__` and
`__setitem__`. -/
structure Slice where
  start : Option Int
  stop : Option Int
  step : Option Int
  deriving Repr, DecidableEq

/-- Effect of the backend executing a write of `data` at `address`:
successive bytes land at successive addresses. -/
def writeBytes (st : Store) (address : Int) : List Nat → Store
  | [] => st
  | b :: rest => writeBytes (fun i => if i = address then b else st i) (address + 1) rest

/-- Effect of the backend executing a read of `length` bytes at `address`. -/
def readBytes (st : Store) (address : Int) : Nat → List Nat
  | 0 => []
  | n + 1 => st address :: readBytes st (address + 1) n

/-- Method `MemoryReader.read(address, length)`: a single backend read. -/
def read (st : Store) (address : Int) (length : Nat) : List Nat × List BackendCall :=
  (readBytes st address length, [.readMem address length])

/-- Method `MemoryWriter.write(address, data)`: a single backend write. -/
def write (st : Store) (address : Int) (data : List Nat) : Store × List BackendCall :=
  (writeBytes st address data, [.writeMem address data])

/-- Embedding of `MemoryReader.__getitem__` with an `int` index (readAt):
`self._read_bytes(address, 1)[0]`. -/
def getItemAt (st : Store) (address : Int) : Nat × List BackendCall :=
  ((readBytes st address 1).headD 0, [.readMem address 1])

/-- Embedding of `MemoryReader.__getitem__` with a slice index (readRange):
requires an explicit stop and unit step; a slice of length `<= 0` returns
an empty byte string with no backend call. -/
def getItemSlice (st : Store) (s : Slice) :
    Except MemError (List Nat) × List BackendCall :=
  let start := s.start.getD 0
  match s.stop with
  | none => (.error .missingStop, [])
  | some stop =>
    if s.step ≠ none ∧ s.step ≠ some 1 then (.error .unsupportedStep, [])
    else
      let length := stop - start
      if length ≤ 0 then (.ok [], [])
      else (.ok (readBytes st start length.toNat), [.readMem start length.toNat])

/-- Embedding of `MemoryWriter.__setitem__` with an `int` index (writeAt):
requires `0 <= value <= 255`, then performs a single one-byte backend
write. -/
def setItemAt (st : Store) (address : Int) (value : Int) :
    Except MemError Unit × Store × List BackendCall :=
  if 0 ≤ value ∧ value ≤ 255 then
    (.ok (), writeBytes st address [value.toNat], [.writeMem address [value.toNat]])
  else (.error .valueRange, st, [])

/-- Embedding of `MemoryWriter.__setitem__` with a slice index (writeRange):
requires an explicit stop, unit step and `len(value) == stop - start`, then
performs a single backend write (also when the slice is empty). -/
def setItemSlice (st : Store) (s : Slice) (value : List Nat) :
    Except MemError Unit × Store × List BackendCall :=
  let start := s.start.getD 0
  match s.stop with
  | none => (.error .missingStop, st, [])
  | some stop =>
    if s.step ≠ none ∧ s.step ≠ some 1 then (.error .unsupportedStep, st, [])
    else
      let sliceLength := stop - start
      if (value.length : Int) ≠ sliceLength then
        (.error (.sizeMismatch sliceLength value.length), st, [])
      else (.ok (), writeBytes st start value, [.writeMem start value])

/-- Embedding of `MemoryWriter.load(address, filepath, max_length)`, with the
file contents abstracted as `sourceBytes`: truncate to `max_length` bytes,
issue one backend write, return the number of bytes written. -/
def load (st : Store) (address : Int) (sourceBytes : List Nat) (maxLength : Nat) :
    Nat × Store × List BackendCall :=
  let data := if sourceBytes.length > maxLength then sourceBytes.take maxLength
              else sourceBytes
  (data.length, writeBytes st address data, [.writeMem address data])

/-- Truncation length stated by the specification for `load` (refinement
reference, written from the spec's words, not from the source):
`min(len(sourceBytes), maxLength, 65536 - address)`. -/
def loadSpecLength (address : Int) (sourceLen maxLength : Nat) : Int :=
  min (min (sourceLen : Int) (maxLength : Int)) (65536 - address)

/-- Embedding of `MemoryWriter.fill(start, end, value)`: a non-positive
length is a no-op with no backend call, otherwise one backend write of
`end - start` copies of `value`. -/
def fill (st : Store) (start stop : Int) (value : Nat) : Store × List BackendCall :=
  let length := stop - start
  if length ≤ 0 then (st, [])
  else (writeBytes st start (List.replicate length.toNat value),
        [.writeMem start (List.replicate length.toNat value)])

/-- Element layouts for typed views (`cast(fmt)` with struct format strings
such as "<B", "<H", "<I"); each layout has a fixed byte width and all
multi-byte layouts are little-endian. -/
inductive ElementLayout where
  | u8
  | u16le
  | u32le
  deriving Repr, DecidableEq

/-- Byte width of an element layout (`struct.calcsize(fmt)`). -/
def ElementLayout.width : ElementLayout → Nat
  | .u8 => 1
  | .u16le => 2
  | .u32le => 4

/-- Little-endian decoding of a byte list into one unsigned value
(`struct.unpack` for a single element; the first byte is least
significant). -/
def decodeLE : List Nat → Nat
  | [] => 0
  | b :: rest => b + 256 * decodeLE rest

/-- Little-endian encoding of one unsigned value (`struct.pack` for a
single in-range element). -/
def ElementLayout.packOne : ElementLayout → Nat → List Nat
  | .u8, v => [v % 256]
  | .u16le, v => [v % 256, v / 256 % 256]
  | .u32le, v => [v % 256, v / 256 % 256, v / 65536 % 256, v / 16777216 % 256]

/-- Decoding of `count` consecutive elements of width `w` from a byte list
in address order (`struct.unpack` with a repeat count). -/
def unpackCount (w : Nat) : Nat → List Nat → List Nat
  | 0, _ => []
  | n + 1, data => decodeLE (data.take w) :: unpackCount w n (data.drop w)

/-- Embedding of `TypedMemoryReader.__getitem__` with an `int` index: reads
`width` bytes via `accessor.read` and decodes one element. -/
def typedGetAt (st : Store) (fmt : ElementLayout) (address : Int) :
    Nat × List BackendCall :=
  (decodeLE (read st address fmt.width).1, (read st address fmt.width).2)

/-- Embedding of `TypedMemoryReader.__getitem__` with a slice index:
requires an explicit stop and a length that is an exact multiple of the
element width, then reads the whole range with one `accessor.read` call and
decodes `length / width` consecutive elements.  The slice's step is never
inspected. -/
def typedGetSlice (st : Store) (fmt : ElementLayout) (s : Slice) :
    Except MemError (List Nat) × List BackendCall :=
  let start := s.start.getD 0
  match s.stop with
  | none => (.error .missingStop, [])
  | some stop =>
    let length := stop - start
    if length % (fmt.width : Int) ≠ 0 then (.error (.alignment length fmt.width), [])
    else
      let count := length / (fmt.width : Int)
      (.ok (unpackCount fmt.width count.toNat (read st start length.toNat).1),
       (read st start length.toNat).2)

/-- Embedding of `TypedMemoryAccessor.__setitem__` with an `int` index:
encodes the value and delegates to `accessor.write` (a single backend
write). -/
def typedSetAt (st : Store) (fmt : ElementLayout) (address : Int) (value : Nat) :
    Store × List BackendCall :=
  write st address (fmt.packOne value)

/-- Embedding of `TypedMemoryAccessor.__setitem__` with a slice index:
requires an explicit stop, a length that is an exact multiple of the
element width and exactly `length / width` values, then encodes them and
issues a single backend write.  The slice's step is never inspected. -/
def typedSetSlice (st : Store) (fmt : ElementLayout) (s : Slice)
    (values : List Nat) : Except MemError Unit × Store × List BackendCall :=
  let start := s.start.getD 0
  match s.stop with
  | none => (.error .missingStop, st, [])
  | some stop =>
    let length := stop - start
    if length % (fmt.width : Int) ≠ 0 then
      (.error (.alignment length fmt.width), st, [])
    else
      let expectedCount := length / (fmt.width : Int)
      if (values.length : Int) ≠ expectedCount then
        (.error (.countMismatch expectedCount values.length), st, [])
      else
        let data := (values.map fmt.packOne).flatten
        (.ok (), (write st start data).1, (write st start data).2)

/-- Region metadata returned by the backend (one entry of
GetMemoryRegions). -/
structure MemoryRegionInfo where
  name : String
  base_address : Nat
  size : Nat
  readable : Bool
  writable : Bool
  has_side_effects : Bool
  populated : Bool
  active : Bool
  deriving Repr, DecidableEq

/-- Backend response of the GetMemoryRegions (ListRegions) call. -/
structure RegionsResponse where
  machine_type : String
  regions : List MemoryRegionInfo
  deriving Repr, DecidableEq

/-- Mutable state of the `Memory` facade: the two lazily-filled caches. -/
structure MemoryState where
  regions_cache : Option (List MemoryRegionInfo)
  machine_type_cache : Option String
  deriving Repr, DecidableEq

/-- Embedding of `Memory._fetch_regions`: one GetMemoryRegions backend call
filling both caches from the response `resp`. -/
def fetchRegions (resp : RegionsResponse) (_st : MemoryState) :
    MemoryState × List BackendCall :=
  ({ regions_cache := some resp.regions,
     machine_type_cache := some resp.machine_type },
   [.getMemoryRegions])

/-- Embedding of the `Memory.regions` property: serve from the cache if
present, otherwise fetch once and serve the freshly filled cache. -/
def regionsProperty (resp : RegionsResponse) (st : MemoryState) :
    List MemoryRegionInfo × MemoryState × List BackendCall :=
  match st.regions_cache with
  | some cached => (cached, st, [])
  | none =>
      let fetched := fetchRegions resp st
      (fetched.1.regions_cache.getD [], fetched.1, fetched.2)

/-- Embedding of the `Memory.machine_type` property: serve from the cache
if present, otherwise fetch once and serve the freshly filled cache. -/
def machineTypeProperty (resp : RegionsResponse) (st : MemoryState) :
    String × MemoryState × List BackendCall :=
  match st.machine_type_cache with
  | some cached => (cached, st, [])
  | none =>
      let fetched := fetchRegions resp st
      (fetched.1.machine_type_cache.getD "", fetched.1, fetched.2)

/-- Region handle as constructed by `Memory.region(name)`: a fresh value
object carrying optional advisory metadata. -/
structure Region where
  region_name : String
  base_address : Option Nat
  size : Option Nat
  deriving Repr, DecidableEq

/-- Embedding of `Memory.region(name)`: looks the name up in the cached
catalog (first match) if the cache is filled, never issues a backend call
and never mutates the facade state. -/
def regionMethod (st : MemoryState) (name : String) :
    Region × MemoryState × List BackendCall :=
  let found : Option MemoryRegionInfo :=
    match st.regions_cache with
    | none => none
    | some infos => infos.find? (fun info => info.name == name)
  match found with
  | none => ({ region_name := name, base_address := none, size := none }, st, [])
  | some info =>
      ({ region_name := name, base_address := some info.base_address,
         size := some info.size }, st, [])

end Beebium

namespace Beebium

/-- Helper: `writeBytes` never touches addresses below the write start. -/
theorem writeBytes_lt (data : List Nat) (st : Store) (address j : Int)
    (h : j < address) : writeBytes st address data j = st j := by
  induction data generalizing st address with
  | nil => rfl
  | cons b rest ih =>
      show writeBytes (fun i => if i = address then b else st i) (address + 1) rest j = st j
      rw [ih _ (address + 1) (by omega)]
      simp only [if_neg (by omega : ¬ j = address)]

/-- Helper: reading back the bytes just written returns them unchanged. -/
theorem readBytes_writeBytes (data : List Nat) (st : Store) (address : Int) :
    readBytes (writeBytes st address data) address data.length = data := by
  induction data generalizing st address with
  | nil => rfl
  | cons b rest ih =>
      show (writeBytes st address (b :: rest)) address ::
            readBytes (writeBytes st address (b :: rest)) (address + 1) rest.length
          = b :: rest
      rw [show writeBytes st address (b :: rest)
            = writeBytes (fun i => if i = address then b else st i) (address + 1) rest
          from rfl]
      rw [writeBytes_lt _ _ _ _ (by omega)]
      simp [ih]

/-- C1: via the Direct (bus) accessor over a byte-store backend,
`writeAt(A, v); readAt(A)` returns `v` for every address `A` in
`[0, 65535]` and value `v` in `[0, 255]`, and `writeRange(range, data)`
followed by `readRange(range)` returns `data` for every well-formed
non-empty range and matching-length data. -/
theorem C1_write_then_read (st : Store) (A v : Nat) (hA : A ≤ 65535) (hv : v ≤ 255)
    (start stop : Int) (step : Option Int) (hstep : step = none ∨ step = some 1)
    (data : List Nat) (hlen : (data.length : Int) = stop - start)
    (hpos : start < stop) :
    (setItemAt st A v).1 = .ok () ∧
    (getItemAt (setItemAt st A v).2.1 A).1 = v ∧
    (setItemSlice st ⟨some start, some stop, step⟩ data).1 = .ok () ∧
    (getItemSlice (setItemSlice st ⟨some start, some stop, step⟩ data).2.1
        ⟨some start, some stop, step⟩).1 = .ok data := by
  have hval : (0 : Int) ≤ (v : Nat) ∧ ((v : Nat) : Int) ≤ 255 :=
    ⟨Int.ofNat_nonneg v, by exact_mod_cast hv⟩
  have hstep' : ¬ (step ≠ none ∧ step ≠ some 1) := by
    rcases hstep with h | h <;> simp [h]
  have hA1 : setItemAt st A v =
      (.ok (), writeBytes st A [v], [.writeMem A [v]]) := by
    simp [setItemAt, hv]
  refine ⟨by rw [hA1], ?_, ?_, ?_⟩
  · rw [hA1]
    show (readBytes (writeBytes st A [v]) A 1).headD 0 = v
    rw [show ((1 : Nat) = List.length [v]) from rfl, readBytes_writeBytes]
    rfl
  · simp [setItemSlice, hstep', hlen]
  · have hw : setItemSlice st ⟨some start, some stop, step⟩ data =
        (.ok (), writeBytes st start data, [.writeMem start data]) := by
      simp [setItemSlice, hstep', hlen]
    rw [hw]
    show (getItemSlice (writeBytes st start data) ⟨some start, some stop, step⟩).1
        = .ok data
    have hnpos : ¬ (stop - start ≤ 0) := by omega
    have htn : (stop - start).toNat = data.length := by omega
    simp only [getItemSlice, Option.getD_some, if_neg hstep', if_neg hnpos, htn,
      readBytes_writeBytes]

/-- C1 witness at a concrete store, address, value, range and data. -/
theorem C1_write_then_read_witness :
    (setItemAt (fun _ => 0) 4096 66).1 = .ok () ∧
    (getItemAt (setItemAt (fun _ => 0) 4096 66).2.1 4096).1 = 66 ∧
    (setItemSlice (fun _ => 0) ⟨some 8192, some 8195, none⟩ [1, 2, 3]).1 = .ok () ∧
    (getItemSlice (setItemSlice (fun _ => 0) ⟨some 8192, some 8195, none⟩
        [1, 2, 3]).2.1 ⟨some 8192, some 8195, none⟩).1 = .ok [1, 2, 3] :=
  C1_write_then_read (fun _ => 0) 4096 66 (by norm_num) (by norm_num)
    8192 8195 none (Or.inl rfl) [1, 2, 3] (by norm_num) (by norm_num)

/-- C2 counterexample: the claim says `load` truncates to
`min(len(sourceBytes), maxLength, 65536 - address)`, but at address 65535
with a 2-byte source and the default maxLength 65536 the code writes and
reports 2 bytes, not the claimed `min(2, 65536, 1) = 1`. -/
theorem C2_load_counterexample :
    (load (fun _ => 0) 65535 [7, 8] 65536).1 = 2 ∧
    loadSpecLength 65535 2 65536 = 1 ∧ (2 : Nat) ≠ 1 := by
  refine ⟨rfl, ?_, by norm_num⟩
  norm_num [loadSpecLength]

/-- C2 amended: `load(address, sourceBytes, maxLength)` truncates
`sourceBytes` to `min(len(sourceBytes), maxLength)` — with no additional
clipping at `65536 - address` — writes the truncated data in a single
backend write at `address`, and returns the number of bytes written. -/
theorem C2_load_amended (st : Store) (address : Int) (sourceBytes : List Nat)
    (maxLength : Nat) :
    (load st address sourceBytes maxLength).1 = min sourceBytes.length maxLength ∧
    (load st address sourceBytes maxLength).2.2 =
      [.writeMem address (sourceBytes.take (min sourceBytes.length maxLength))] ∧
    (load st address sourceBytes maxLength).2.1 =
      writeBytes st address (sourceBytes.take (min sourceBytes.length maxLength)) := by
  have hmin : sourceBytes.take (min sourceBytes.length maxLength) =
      (if sourceBytes.length > maxLength then sourceBytes.take maxLength
       else sourceBytes) := by
    by_cases h : sourceBytes.length > maxLength
    · rw [if_pos h, Nat.min_eq_right (Nat.le_of_lt h)]
    · rw [if_neg h, Nat.min_eq_left (by omega), List.take_length]
  refine ⟨?_, ?_, ?_⟩
  · show (if sourceBytes.length > maxLength then sourceBytes.take maxLength
        else sourceBytes).length = _
    rw [← hmin, List.length_take]
    omega
  · show [BackendCall.writeMem address
        (if sourceBytes.length > maxLength then sourceBytes.take maxLength
         else sourceBytes)] = _
    rw [hmin]
  · show writeBytes st address
        (if sourceBytes.length > maxLength then sourceBytes.take maxLength
         else sourceBytes) = _
    rw [hmin]

/-- C3: `fill(start, end, v)` with `end <= start` issues zero backend calls
and leaves the store unchanged; with `end > start` it issues exactly one
backend write whose data is `end - start` repetitions of `v` at address
`start`. -/
theorem C3_fill (st : Store) (start stop : Int) (v : Nat) :
    (stop ≤ start → fill st start stop v = (st, [])) ∧
    (start < stop →
      (fill st start stop v).2 =
        [.writeMem start (List.replicate (stop - start).toNat v)] ∧
      (fill st start stop v).1 =
        writeBytes st start (List.replicate (stop - start).toNat v)) := by
  unfold fill
  constructor
  · intro h
    rw [if_pos (by omega)]
  · intro h
    rw [if_neg (by omega)]
    exact ⟨rfl, rfl⟩

/-- C3 witness: a concrete no-op fill and a concrete two-byte fill. -/
theorem C3_fill_witness :
    fill (fun _ => 0) 8 5 7 = ((fun _ => 0), []) ∧
    (fill (fun _ => 0) 4096 4098 255).2 =
      [.writeMem 4096 (List.replicate 2 255)] :=
  ⟨(C3_fill (fun _ => 0) 8 5 7).1 (by norm_num),
   by
    have h := ((C3_fill (fun _ => 0) 4096 4098 255).2 (by norm_num)).1
    simpa using h⟩

/-- C4: a zero-length range (`start == stop`) read returns an empty byte
sequence with no backend call, while a zero-length write with zero-length
data succeeds, leaves the store unchanged, and still issues exactly one
degenerate backend call recording zero bytes written. -/
theorem C4_zero_length (st : Store) (start : Int) (step : Option Int)
    (hstep : step = none ∨ step = some 1) :
    getItemSlice st ⟨some start, some start, step⟩ = (.ok [], []) ∧
    setItemSlice st ⟨some start, some start, step⟩ [] =
      (.ok (), st, [.writeMem start []]) := by
  have hstep' : ¬ (step ≠ none ∧ step ≠ some 1) := by
    rcases hstep with h | h <;> simp [h]
  constructor
  · simp [getItemSlice, hstep']
  · simp [setItemSlice, hstep', writeBytes]

/-- C4 witness at a concrete store and address. -/
theorem C4_zero_length_witness :
    getItemSlice (fun _ => 0) ⟨some 4096, some 4096, none⟩ = (.ok [], []) ∧
    setItemSlice (fun _ => 0) ⟨some 4096, some 4096, none⟩ [] =
      (.ok (), (fun _ => 0), [.writeMem 4096 []]) :=
  C4_zero_length (fun _ => 0) 4096 none (Or.inl rfl)

/-- C5: `writeRange(range, data)` fails with a `SizeMismatchError` naming
the slice length and the data length exactly when
`len(data) != stop - start` (leaving the store unchanged, no backend call),
and performs the single backend write when the lengths agree. -/
theorem C5_size_mismatch (st : Store) (start stop : Int) (step : Option Int)
    (hstep : step = none ∨ step = some 1) (data : List Nat) :
    ((data.length : Int) ≠ stop - start →
      setItemSlice st ⟨some start, some stop, step⟩ data =
        (.error (.sizeMismatch (stop - start) data.length), st, [])) ∧
    ((data.length : Int) = stop - start →
      setItemSlice st ⟨some start, some stop, step⟩ data =
        (.ok (), writeBytes st start data, [.writeMem start data])) := by
  have hstep' : ¬ (step ≠ none ∧ step ≠ some 1) := by
    rcases hstep with h | h <;> simp [h]
  constructor
  · intro h
    simp [setItemSlice, hstep', h]
  · intro h
    simp [setItemSlice, hstep', h]

/-- C5 witness: the spec's concrete example, range {0x1000, 0x1004}: three
data bytes raise the mismatch naming lengths 4 and 3, four data bytes
succeed with a single backend write. -/
theorem C5_size_mismatch_witness :
    setItemSlice (fun _ => 0) ⟨some 4096, some 4100, none⟩ [1, 2, 3] =
      (.error (.sizeMismatch 4 3), (fun _ => 0), []) ∧
    setItemSlice (fun _ => 0) ⟨some 4096, some 4100, none⟩ [1, 2, 3, 4] =
      (.ok (), writeBytes (fun _ => 0) 4096 [1, 2, 3, 4],
       [.writeMem 4096 [1, 2, 3, 4]]) :=
  ⟨by
    have h := (C5_size_mismatch (fun _ => 0) 4096 4100 none (Or.inl rfl)
      [1, 2, 3]).1 (by norm_num)
    simpa using h,
   (C5_size_mismatch (fun _ => 0) 4096 4100 none (Or.inl rfl) [1, 2, 3, 4]).2
    (by norm_num)⟩

/-- Helper: decoding `n` elements yields exactly `n` values. -/
theorem unpackCount_length (w n : Nat) (data : List Nat) :
    (unpackCount w n data).length = n := by
  induction n generalizing data with
  | zero => rfl
  | succ n ih => simp [unpackCount, ih]

/-- C6: typed encoding and decoding is little-endian:
`TypedView(U16LE).set(0x0070, 0x1234)` issues exactly one backend write of
the bytes `[0x34, 0x12]` at address `0x0070`, and `TypedView(U16LE).get`
over a 6-byte range holding `[0x01,0x00,0x02,0x00,0x03,0x00]` yields
`(1, 2, 3)` in address order with a single backend read. -/
theorem C6_u16le (st : Store) (base : Int)
    (hbytes : readBytes st base 6 = [1, 0, 2, 0, 3, 0]) :
    typedSetAt st .u16le 0x70 0x1234 =
      (writeBytes st 0x70 [0x34, 0x12], [.writeMem 0x70 [0x34, 0x12]]) ∧
    typedGetSlice st .u16le ⟨some base, some (base + 6), none⟩ =
      (.ok [1, 2, 3], [.readMem base 6]) := by
  constructor
  · show write st 0x70 (ElementLayout.packOne .u16le 0x1234) = _
    norm_num [write, ElementLayout.packOne]
  · have key : typedGetSlice st .u16le ⟨some base, some (base + 6), none⟩ =
        (.ok (unpackCount 2 3 (readBytes st base 6)), [.readMem base 6]) := by
      have hlen : base + 6 - base = (6 : Int) := by omega
      simp only [typedGetSlice, Option.getD_some, hlen, read]
      norm_num [ElementLayout.width]
      exact ⟨rfl, rfl⟩
    rw [key, hbytes]
    norm_num [unpackCount, decodeLE]

/-- C6 witness: a store holding `[1,0,2,0,3,0]` at address 100. -/
theorem C6_u16le_witness :
    typedSetAt (writeBytes (fun _ => 0) 100 [1, 0, 2, 0, 3, 0]) .u16le 0x70 0x1234 =
      (writeBytes (writeBytes (fun _ => 0) 100 [1, 0, 2, 0, 3, 0]) 0x70 [0x34, 0x12],
       [.writeMem 0x70 [0x34, 0x12]]) ∧
    typedGetSlice (writeBytes (fun _ => 0) 100 [1, 0, 2, 0, 3, 0]) .u16le
      ⟨some 100, some (100 + 6), none⟩ = (.ok [1, 2, 3], [.readMem 100 6]) :=
  C6_u16le _ 100 (readBytes_writeBytes [1, 0, 2, 0, 3, 0] (fun _ => 0) 100)

/-- C7: a typed range operation whose length is not an exact multiple of
the element width fails with an `AlignmentError` before any backend call
(store unchanged, no calls, nothing truncated); when the length is an
exact multiple, `length / width` consecutive elements are decoded, and a
set with `length / width` values encodes them all into one backend
write. -/
theorem C7_alignment (st : Store) (fmt : ElementLayout) (start stop : Int)
    (values : List Nat) :
    ((stop - start) % (fmt.width : Int) ≠ 0 →
      typedGetSlice st fmt ⟨some start, some stop, none⟩ =
        (.error (.alignment (stop - start) fmt.width), []) ∧
      typedSetSlice st fmt ⟨some start, some stop, none⟩ values =
        (.error (.alignment (stop - start) fmt.width), st, [])) ∧
    ((stop - start) % (fmt.width : Int) = 0 →
      (∃ es, (typedGetSlice st fmt ⟨some start, some stop, none⟩).1 = .ok es ∧
        es.length = ((stop - start) / (fmt.width : Int)).toNat) ∧
      ((values.length : Int) = (stop - start) / (fmt.width : Int) →
        (typedSetSlice st fmt ⟨some start, some stop, none⟩ values).1 = .ok () ∧
        (typedSetSlice st fmt ⟨some start, some stop, none⟩ values).2.2 =
          [.writeMem start ((values.map fmt.packOne).flatten)])) := by
  constructor
  · intro h
    constructor
    · simp [typedGetSlice, h]
    · simp [typedSetSlice, h]
  · intro h
    constructor
    · refine ⟨unpackCount fmt.width ((stop - start) / (fmt.width : Int)).toNat
        (readBytes st start (stop - start).toNat), ?_,
        unpackCount_length _ _ _⟩
      simp [typedGetSlice, h, read]
    · intro hc
      constructor <;> simp [typedSetSlice, h, hc, write]

/-- C7 witness: a misaligned 5-byte U16LE get fails with the alignment
error, and an aligned 4-byte U16LE set of two values succeeds. -/
theorem C7_alignment_witness :
    typedGetSlice (fun _ => 0) .u16le ⟨some 0x70, some 0x75, none⟩ =
      (.error (.alignment 5 2), []) ∧
    (typedSetSlice (fun _ => 0) .u16le ⟨some 0x70, some 0x74, none⟩ [1, 2]).1 =
      .ok () := by
  constructor
  · have h := ((C7_alignment (fun _ => 0) .u16le 0x70 0x75 []).1
      (by norm_num [ElementLayout.width])).1
    simpa [ElementLayout.width] using h
  · exact (((C7_alignment (fun _ => 0) .u16le 0x70 0x74 [1, 2]).2
      (by norm_num [ElementLayout.width])).2
      (by norm_num [ElementLayout.width])).1

/-- C8: every failing validation of a write operation (out-of-range
single-byte value, missing stop, non-unit step, size mismatch, typed
misalignment or typed count mismatch) returns its error with the store
unchanged and, crucially, zero backend calls — no partial writes from
malformed input. -/
theorem C8_fail_fast (st : Store) (address value : Int) (s : Slice)
    (data : List Nat) (fmt : ElementLayout) (values : List Nat) :
    (∀ e, (setItemAt st address value).1 = .error e →
      (setItemAt st address value).2 = (st, [])) ∧
    (∀ e, (setItemSlice st s data).1 = .error e →
      (setItemSlice st s data).2 = (st, [])) ∧
    (∀ e, (typedSetSlice st fmt s values).1 = .error e →
      (typedSetSlice st fmt s values).2 = (st, [])) := by
  rcases s with ⟨sstart, sstop, sstep⟩
  refine ⟨?_, ?_, ?_⟩
  · intro e he
    by_cases h : 0 ≤ value ∧ value ≤ 255
    · simp [setItemAt, h] at he
    · simp [setItemAt, h]
  · intro e he
    cases sstop with
    | none => rfl
    | some stop =>
        by_cases h1 : sstep ≠ none ∧ sstep ≠ some 1
        · simp [setItemSlice, h1]
        · by_cases h2 : (data.length : Int) ≠ stop - (sstart.getD 0)
          · simp [setItemSlice, h1, h2]
          · simp [setItemSlice, h1, h2] at he
  · intro e he
    cases sstop with
    | none => rfl
    | some stop =>
        by_cases h1 : (stop - sstart.getD 0) % (fmt.width : Int) ≠ 0
        · simp [typedSetSlice, h1]
        · by_cases h2 : (values.length : Int) ≠
              (stop - sstart.getD 0) / (fmt.width : Int)
          · simp [typedSetSlice, h1, h2]
          · simp [typedSetSlice, h1, h2] at he

/-- C8 witness: three concrete failed validations (value 300 out of byte
range, a stepped slice write, a misaligned typed set) each leave the store
untouched and issue no backend call. -/
theorem C8_fail_fast_witness :
    (setItemAt (fun _ => 0) 0 300).2 = ((fun _ => 0), []) ∧
    (setItemSlice (fun _ => 0) ⟨some 0, some 4, some 2⟩ [1, 2, 3, 4]).2 =
      ((fun _ => 0), []) ∧
    (typedSetSlice (fun _ => 0) .u16le ⟨some 0x70, some 0x75, none⟩ [1, 2]).2 =
      ((fun _ => 0), []) :=
  ⟨(C8_fail_fast (fun _ => 0) 0 300 ⟨some 0, some 4, some 2⟩ [1, 2, 3, 4]
      .u16le [1, 2]).1 .valueRange (by norm_num [setItemAt]),
   (C8_fail_fast (fun _ => 0) 0 300 ⟨some 0, some 4, some 2⟩ [1, 2, 3, 4]
      .u16le [1, 2]).2.1 .unsupportedStep rfl,
   (C8_fail_fast (fun _ => 0) 0 300 ⟨some 0x70, some 0x75, none⟩ [1, 2, 3, 4]
      .u16le [1, 2]).2.2 (.alignment 5 2) rfl⟩

/-- C9: the region catalog is fetched lazily and exactly once: from a fresh
facade state, the first access of either `regions` or `machine_type`
issues exactly one GetMemoryRegions call; afterwards every access of
either is served from the cache with no backend call; `region(name)`
before the fetch carries no base address or size, and a fresh
`region(name)` after `regions` was accessed carries the cached
`base_address` and `size` of the first catalog entry with that name. -/
theorem C9_region_catalog (resp : RegionsResponse) (name : String)
    (info : MemoryRegionInfo)
    (hfind : resp.regions.find? (fun i => i.name == name) = some info) :
    (regionsProperty resp ⟨none, none⟩).1 = resp.regions ∧
    (regionsProperty resp ⟨none, none⟩).2.2 = [.getMemoryRegions] ∧
    (machineTypeProperty resp ⟨none, none⟩).1 = resp.machine_type ∧
    (machineTypeProperty resp ⟨none, none⟩).2.2 = [.getMemoryRegions] ∧
    regionsProperty resp (regionsProperty resp ⟨none, none⟩).2.1 =
      (resp.regions, (regionsProperty resp ⟨none, none⟩).2.1, []) ∧
    machineTypeProperty resp (regionsProperty resp ⟨none, none⟩).2.1 =
      (resp.machine_type, (regionsProperty resp ⟨none, none⟩).2.1, []) ∧
    regionsProperty resp (machineTypeProperty resp ⟨none, none⟩).2.1 =
      (resp.regions, (machineTypeProperty resp ⟨none, none⟩).2.1, []) ∧
    machineTypeProperty resp (machineTypeProperty resp ⟨none, none⟩).2.1 =
      (resp.machine_type, (machineTypeProperty resp ⟨none, none⟩).2.1, []) ∧
    (regionMethod ⟨none, none⟩ name).1 = ⟨name, none, none⟩ ∧
    (regionMethod (regionsProperty resp ⟨none, none⟩).2.1 name).1 =
      ⟨name, some info.base_address, some info.size⟩ := by
  simp [regionsProperty, machineTypeProperty, fetchRegions, regionMethod, hfind]

/-- C9 witness: a one-region catalog for "main_ram". -/
theorem C9_region_catalog_witness :
    (regionMethod ⟨none, none⟩ "main_ram").1 = ⟨"main_ram", none, none⟩ ∧
    (regionMethod
        (regionsProperty
          ⟨"ModelB", [⟨"main_ram", 0, 32768, true, true, false, true, true⟩]⟩
          ⟨none, none⟩).2.1 "main_ram").1 =
      ⟨"main_ram", some 0, some 32768⟩ := by
  have h := C9_region_catalog
    ⟨"ModelB", [⟨"main_ram", 0, 32768, true, true, false, true, true⟩]⟩
    "main_ram" ⟨"main_ram", 0, 32768, true, true, false, true, true⟩ (by rfl)
  exact ⟨h.2.2.2.2.2.2.2.2.1, h.2.2.2.2.2.2.2.2.2⟩

/-- C10: typed views never inspect a slice's step: for any step `k ≠ 1`
they behave exactly as on the contiguous range `[start, stop)` (same value
as with step 1) and never fail with the step error, whereas the raw
readRange/writeRange reject the same slice with `UnsupportedStepError`. -/
theorem C10_typed_ignores_step (st : Store) (fmt : ElementLayout)
    (start stop k : Int) (hk : k ≠ 1) (values data : List Nat) :
    typedGetSlice st fmt ⟨some start, some stop, some k⟩ =
      typedGetSlice st fmt ⟨some start, some stop, some 1⟩ ∧
    typedSetSlice st fmt ⟨some start, some stop, some k⟩ values =
      typedSetSlice st fmt ⟨some start, some stop, some 1⟩ values ∧
    (typedGetSlice st fmt ⟨some start, some stop, some k⟩).1 ≠
      .error .unsupportedStep ∧
    (typedSetSlice st fmt ⟨some start, some stop, some k⟩ values).1 ≠
      .error .unsupportedStep ∧
    getItemSlice st ⟨some start, some stop, some k⟩ =
      (.error .unsupportedStep, []) ∧
    setItemSlice st ⟨some start, some stop, some k⟩ data =
      (.error .unsupportedStep, st, []) := by
  have hs : (some k ≠ (none : Option Int) ∧ some k ≠ some 1) := by simp [hk]
  refine ⟨rfl, rfl, ?_, ?_, ?_, ?_⟩
  · unfold typedGetSlice
    by_cases h : (stop - start) % (fmt.width : Int) ≠ 0 <;> simp [h]
  · unfold typedSetSlice
    by_cases h : (stop - start) % (fmt.width : Int) ≠ 0
    · simp [h]
    · by_cases h2 : (values.length : Int) ≠
          (stop - start) / (fmt.width : Int) <;> simp [h, h2]
  · simp [getItemSlice, hs]
  · simp [setItemSlice, hs]

/-- C10 witness: step 2 over a 4-byte range. -/
theorem C10_typed_ignores_step_witness :
    typedGetSlice (fun _ => 0) .u16le ⟨some 0, some 4, some 2⟩ =
      typedGetSlice (fun _ => 0) .u16le ⟨some 0, some 4, some 1⟩ ∧
    getItemSlice (fun _ => 0) ⟨some 0, some 4, some 2⟩ =
      (.error .unsupportedStep, []) :=
  ⟨(C10_typed_ignores_step (fun _ => 0) .u16le 0 4 2 (by norm_num) [] []).1,
   (C10_typed_ignores_step (fun _ => 0) .u16le 0 4 2
      (by norm_num) [] []).2.2.2.2.1⟩

end Beebium
